import Mathlib

/-!
Verification development for the flux-code-cli streaming chat subsystem.

The Go source is shallowly embedded:
* `strings` helpers are modelled on `List Char` (Go strings are byte
  sequences; all inputs of interest here are ASCII).
* `encoding/json` is an external library; a decode step is modelled as an
  explicit function parameter `String → Option α` (none = unmarshal error).
* an HTTP response is modelled by its status code, its body (list of lines
  for SSE bodies, one string otherwise) and the scanner's final error.
* a channel of events is modelled by the list of events sent on it, in
  order, followed by the producer's close action (`defer close(out)`).
-/

namespace Flux

/-- Model of Go `strings.TrimSpace` (internal/ai/standard.go uses it on
ASCII SSE lines; we trim ASCII whitespace). -/
def trimSpace (s : String) : String :=
  String.mk (((s.toList.dropWhile Char.isWhitespace).reverse.dropWhile Char.isWhitespace).reverse)

/-- Model of Go `strings.HasPrefix p s`. -/
def hasPre (s p : String) : Bool :=
  p.toList.isPrefixOf s.toList

/-- Model of Go `strings.TrimPrefix`: drops a leading occurrence of `p`,
returns `s` unchanged otherwise. -/
def trimLeading (s p : String) : String :=
  if p.toList.isPrefixOf s.toList then String.mk (s.toList.drop p.toList.length) else s

/-- Model of Go `strings.TrimRight s "/"` as used by NewStandardClient. -/
def trimRightSlash (s : String) : String :=
  String.mk ((s.toList.reverse.dropWhile (fun c => c == '/')).reverse)

/-- Model of Go `error` values produced inside this repository.
`errorMsg` covers `errors.New` / `fmt.Errorf` values; `jsonDecodeError`
stands for the (opaque) error value `encoding/json` returns for a given
input; `apiError` and `rateLimitError` are the structured error types of
the ai package; `contextCanceled` is `context.Canceled`. -/
inductive GoError where
  | errorMsg (msg : String)
  | jsonDecodeError (input : String)
  | apiError (provider : String) (statusCode : Int) (message : String)
  | rateLimitError (retryAfter : Int)
  | contextCanceled
deriving DecidableEq, Repr

/-- Error message rendering, following each type's `Error()` method. -/
def GoError.errString : GoError → String
  | .errorMsg m => m
  | .jsonDecodeError s => "json: cannot unmarshal " ++ s
  | .apiError p st m => p ++ " API error (" ++ toString st ++ "): " ++ m
  | .rateLimitError r => "rate limited, retry after " ++ toString r ++ " seconds"
  | .contextCanceled => "context canceled"

/-- IsRetryableHTTP (src/unnamed/part_001): true for 429 and [500,599]. -/
def IsRetryableHTTP (status : Int) : Bool :=
  status == 429 || (status >= 500 && status <= 599)

/-- IsRetryable (src/unnamed/part_002 lines 26-40): type-switches on the
error; `none` models a nil error. -/
def IsRetryable : Option GoError → Bool
  | none => false
  | some e =>
    match e with
    | .apiError _ statusCode _ => statusCode >= 500 || statusCode == 429
    | .rateLimitError _ => true
    | _ => false

/-- StreamEventType (internal/ai/types.go). -/
inductive StreamEventType where
  | chunk
  | done
  | error
deriving DecidableEq, Repr

/-- StreamEvent (internal/ai/types.go): Type, Content, Err. -/
structure StreamEvent where
  type : StreamEventType
  content : String
  err : Option GoError
deriving DecidableEq, Repr

/-- One choice of a standardStreamResponse (internal/ai/standard.go):
`delta.content` and `finish_reason`. -/
structure StandardStreamChoice where
  deltaContent : String
  finishReason : String
deriving DecidableEq, Repr

/-- standardStreamResponse (internal/ai/standard.go): a chunk object with
a list of choices. -/
structure StandardStreamResponse where
  choices : List StandardStreamChoice
deriving DecidableEq, Repr

/-- The decision the reader loop body of StandardClient.Stream takes on
one scanned line (internal/ai/standard.go lines 147-159): skip blank
lines and lines without the `data:` marker, recognize the `[DONE]`
terminator, otherwise hand the stripped payload to the JSON decoder. -/
inductive LineClass where
  | skip
  | terminator
  | payload (data : String)
deriving DecidableEq, Repr

/-- Classify one SSE line exactly as the loop body of
StandardClient.Stream does. -/
def classifyLine (line : String) : LineClass :=
  if trimSpace line == "" then .skip
  else if !(hasPre line "data:") then .skip
  else
    let data := trimSpace (trimLeading line "data:")
    if data == "[DONE]" then .terminator
    else .payload data

/-- Events emitted for the choices of one decoded chunk
(internal/ai/standard.go lines 167-171): one chunk event per choice with
non-empty delta content, in order. -/
def emitChoices (cs : List StandardStreamChoice) : List StreamEvent :=
  cs.filterMap fun c =>
    if c.deltaContent != "" then some ⟨.chunk, c.deltaContent, none⟩ else none

/-- The scan loop of StandardClient.Stream (internal/ai/standard.go lines
145-176) as a function from the lines of the response body and the
scanner's final error to the list of events sent on the channel.
`decode` models `json.Unmarshal` into standardStreamResponse. -/
def streamReadLines (decode : String → Option StandardStreamResponse) :
    List String → Option GoError → List StreamEvent
  | [], scanErr =>
    match scanErr with
    | some e => if e = .contextCanceled then [] else [⟨.error, "", some e⟩]
    | none => []
  | line :: rest, scanErr =>
    match classifyLine line with
    | .skip => streamReadLines decode rest scanErr
    | .terminator => [⟨.done, "", none⟩]
    | .payload data =>
      match decode data with
      | none => [⟨.error, "", some (.jsonDecodeError data)⟩]
      | some chunk => emitChoices chunk.choices ++ streamReadLines decode rest scanErr

/-- httpError (internal/ai/standard.go lines 189-192). -/
def httpError (statusCode : Int) (body : String) : GoError :=
  .errorMsg ("api error: status " ++ toString statusCode ++ ": " ++ trimSpace body)

/-- An HTTP response as seen by the streaming goroutine: status code, the
body (for the error path), the body split in lines (for the scanner), and
the scanner's final error. -/
structure StreamResponse where
  statusCode : Int
  body : String
  lines : List String
  scanErr : Option GoError
deriving Repr

/-- The events the background goroutine of StandardClient.Stream
(internal/ai/standard.go lines 136-177) sends for one response: an error
event on a non-200 status, otherwise the scan loop's events. -/
def standardStreamEvents (decode : String → Option StandardStreamResponse)
    (r : StreamResponse) : List StreamEvent :=
  if r.statusCode != 200 then [⟨.error, "", some (httpError r.statusCode r.body)⟩]
  else streamReadLines decode r.lines r.scanErr

/-- An action observable on the event channel: an event being sent, or
the channel being closed. -/
inductive ChannelAction where
  | event (e : StreamEvent)
  | close
deriving DecidableEq, Repr

/-- The complete channel trace of the goroutine: every event in order,
then the single deferred `close(out)` on goroutine exit. -/
def standardStreamTrace (decode : String → Option StandardStreamResponse)
    (r : StreamResponse) : List ChannelAction :=
  (standardStreamEvents decode r).map .event ++ [.close]

/-- StreamEvent of the earlier generation of the ai package
(src/unnamed/part_003 lines 60-66): plain fields Content, Done, Error,
FinishReason. This is the shape the UI bridge (internal/ui/model.go)
inspects. -/
structure OldStreamEvent where
  content : String
  done : Bool
  error : Option GoError
  finishReason : String
deriving DecidableEq, Repr

/-- StreamChoice (src/unnamed/part_003): delta content and an optional
finish reason (a nil-able pointer in the source). -/
structure StreamChoice where
  deltaContent : String
  finishReason : Option String
deriving DecidableEq, Repr

/-- StreamChunk (src/unnamed/part_003): one SSE chunk. -/
structure StreamChunk where
  choices : List StreamChoice
deriving DecidableEq, Repr

/-- The scan loop of OpenAIClient.Stream (src/unnamed/part_002 lines
124-161). Differences from StandardClient.Stream faithfully kept: the
marker is `"data: "` with a space and no trimming, a malformed payload is
skipped with `continue`, only the first choice is read, a non-nil finish
reason emits a done event, and a final scanner error is always reported
(no cancellation exemption). -/
def openAIReadLines (decode : String → Option StreamChunk) :
    List String → Option GoError → List OldStreamEvent
  | [], scanErr =>
    match scanErr with
    | some e => [⟨"", false, some (.errorMsg ("stream error: " ++ e.errString)), ""⟩]
    | none => []
  | line :: rest, scanErr =>
    if !(hasPre line "data: ") then openAIReadLines decode rest scanErr
    else
      let data := trimLeading line "data: "
      if data == "[DONE]" then [⟨"", true, none, ""⟩]
      else
        match decode data with
        | none => openAIReadLines decode rest scanErr
        | some chunk =>
          match chunk.choices with
          | [] => openAIReadLines decode rest scanErr
          | c0 :: _ =>
            (if c0.deltaContent != "" then [⟨c0.deltaContent, false, none, ""⟩] else []) ++
            (match c0.finishReason with
             | some fr => [⟨"", true, none, fr⟩]
             | none => openAIReadLines decode rest scanErr)

/-- ChatResponse (internal/ai/types.go): the non-streaming result. -/
structure ChatResponse where
  content : String
deriving DecidableEq, Repr

/-- One choice of a standardResponse (internal/ai/standard.go lines
227-233): `message.content`. -/
structure StandardMessageChoice where
  messageContent : String
deriving DecidableEq, Repr

/-- standardResponse (internal/ai/standard.go): body of a non-streaming
completion. -/
structure StandardResponse where
  choices : List StandardMessageChoice
deriving DecidableEq, Repr

/-- An HTTP response as seen by Complete: status code and full body. -/
structure CompleteResponse where
  statusCode : Int
  body : String
deriving DecidableEq, Repr

/-- The response handling of StandardClient.Complete
(internal/ai/standard.go lines 101-114): non-200 status fails via
httpError; a body the JSON decoder rejects fails with the decoder's
error; zero choices fails with "no choices returned"; otherwise the first
choice's message content is returned. `decode` models `json.Decode` into
standardResponse. -/
def standardComplete (decode : String → Option StandardResponse)
    (resp : CompleteResponse) : Except GoError ChatResponse :=
  if resp.statusCode != 200 then .error (httpError resp.statusCode resp.body)
  else
    match decode resp.body with
    | none => .error (.jsonDecodeError resp.body)
    | some parsed =>
      match parsed.choices with
      | [] => .error (.errorMsg "no choices returned")
      | c :: _ => .ok ⟨c.messageContent⟩

/-- StandardClientConfig (internal/ai/standard.go lines 17-25). The
shared HTTP transport is an external collaborator and is omitted. -/
structure StandardClientConfig where
  baseURL : String
  apiKey : String
  authHeader : String
  authPre : String
  model : String
  provider : String
deriving DecidableEq, Repr

/-- StandardClient (internal/ai/standard.go lines 29-37), the fields of a
constructed client. -/
structure StandardClient where
  baseURL : String
  apiKey : String
  authHeader : String
  authPre : String
  model : String
  provider : String
deriving DecidableEq, Repr

/-- NewStandardClient (internal/ai/standard.go lines 40-77): requires
baseURL and model, defaults the auth header name to "Authorization", the
auth value marker to "Bearer ", the provider label to "custom", and trims
trailing slashes from the base URL. -/
def NewStandardClient (cfg : StandardClientConfig) : Except GoError StandardClient :=
  if cfg.baseURL == "" then .error (.errorMsg "base URL is required")
  else if cfg.model == "" then .error (.errorMsg "model is required")
  else
    .ok
      { baseURL := trimRightSlash cfg.baseURL
        apiKey := cfg.apiKey
        authHeader := if cfg.authHeader == "" then "Authorization" else cfg.authHeader
        authPre := if cfg.authPre == "" then "Bearer " else cfg.authPre
        model := cfg.model
        provider := if cfg.provider == "" then "custom" else cfg.provider }

/-- applyHeaders (internal/ai/standard.go lines 182-187): the headers set
on every outgoing request, for Complete and Stream alike. Content-Type is
always set; the auth header is set only when an API key is configured. -/
def applyHeaders (c : StandardClient) : List (String × String) :=
  let h := [("Content-Type", "application/json")]
  if c.apiKey != "" then h ++ [(c.authHeader, c.authPre ++ c.apiKey)] else h

/-- Provider (internal/config/types.go): one provider's configuration
record. -/
structure Provider where
  apiKey : String
  baseURL : String
  model : String
  authHeader : String
  authPre : String
deriving DecidableEq, Repr

/-- A registry constructor: config.Provider to a built client (the
*http.Client argument, an external collaborator, is omitted). -/
abbrev Ctor := Provider → Except GoError StandardClient

/-- Lookup in a Go map modelled as an association list. -/
def lookupA (l : List (String × α)) (k : String) : Option α :=
  (l.find? (fun kv => kv.1 == k)).map (fun kv => kv.2)

/-- The constructor table NewRegistry installs
(internal/ai/registry.go lines 16-62). -/
def newRegistryCtors : List (String × Ctor) :=
  [("custom", fun p => NewStandardClient ⟨p.baseURL, p.apiKey, "", "", p.model, "custom"⟩),
   ("openai", fun p => NewStandardClient ⟨p.baseURL, p.apiKey, "", "", p.model, "openai"⟩),
   ("ollama", fun p =>
      let baseURL := if p.baseURL == "" then "http://localhost:11434/v1" else p.baseURL
      NewStandardClient ⟨baseURL, p.apiKey, "", "", p.model, "ollama"⟩),
   ("openrouter", fun p =>
      NewStandardClient ⟨"https://openrouter.ai/api/v1", p.apiKey, "", "", p.model, "openrouter"⟩)]

/-- Config (internal/config/types.go), the fields Registry.Build reads.
The registry's Build takes *config.Config, so a nil pointer is modelled
by `Option`. -/
structure ConfigGo where
  provider : String
  providers : List (String × Provider)

/-- Registry.Build (internal/ai/registry.go lines 70-90): requires a
non-nil config and a config entry for the name; resolves the name in the
constructor table, falling back to the "custom" constructor when the name
is unknown; fails naming the provider when neither exists. -/
def Registry.build (ctors : List (String × Ctor)) (providerName : String)
    (cfg : Option ConfigGo) : Except GoError StandardClient :=
  match cfg with
  | none => .error (.errorMsg "config is nil")
  | some cfg =>
    match lookupA cfg.providers providerName with
    | none => .error (.errorMsg ("provider \"" ++ providerName ++ "\" not found in config"))
    | some provCfg =>
      match lookupA ctors providerName with
      | some ctor => ctor provCfg
      | none =>
        match lookupA ctors "custom" with
        | some fallback => fallback provCfg
        | none => .error (.errorMsg ("provider \"" ++ providerName ++ "\" has no constructor"))

/-- Role (internal/ui/components/messages.go). -/
inductive Role where
  | user
  | assistant
  | system
deriving DecidableEq, Repr

/-- Message (internal/ui/components/messages.go): one history record.
The Timestamp field (time.Now at insertion) is not modelled. -/
structure UIMessage where
  role : Role
  content : String
deriving DecidableEq, Repr

/-- Messages.Add (internal/ui/components/messages.go lines 44-50):
appends one record unconditionally. -/
def messagesAdd (items : List UIMessage) (role : Role) (content : String) : List UIMessage :=
  items ++ [⟨role, content⟩]

/-- Key presses the Update switch distinguishes
(internal/ui/model.go lines 63-93). -/
inductive TeaKey where
  | ctrlC
  | enter
  | other (s : String)
deriving DecidableEq, Repr

/-- The bubbletea messages internal/ui/model.go handles. `nilMsg` models
a nil tea.Msg (returned by waitForNextChunk on an empty non-terminal
event). -/
inductive TeaMsg where
  | key (k : TeaKey)
  | clearExitPromptM
  | streamChunk (s : String)
  | streamDone
  | streamErr (e : GoError)
  | windowSize (w h : Int)
  | nilMsg
deriving DecidableEq, Repr

/-- The commands Update returns. Commands produced by the external input
and viewport components (textarea blink and the like) are summarized by
`externalTail`; `tickClearExit` is the exit-prompt timer; `quit` is
tea.Quit; `waitForNextChunk` re-arms the stream consumer. -/
inductive TeaCmd where
  | noCmd
  | quit
  | tickClearExit
  | waitForNextChunkC
  | externalTail
deriving DecidableEq, Repr

/-- Model (internal/ui/model.go lines 24-45). The input component is an
external textarea; only its current value is modelled. The viewport and
renderers are display-only and are not modelled. `streamOpen` records
that a stream's event channel is stored in `streamEvents`; `hasCancel`
records a non-nil `cancelFn`. -/
structure UIModel where
  inputValue : String
  messages : List UIMessage
  streaming : Bool
  streamBuf : String
  streamOpen : Bool
  hasCancel : Bool
  err : Option GoError
  width : Int
  height : Int
  ready : Bool
  quitting : Bool
  lastCtrlC : Int
  showExitPrompt : Bool
deriving DecidableEq, Repr

/-- exitPromptTimeout (internal/ui/model.go line 17), in milliseconds. -/
def exitPromptTimeout : Int := 2000

/-- sendMessage (internal/ui/model.go lines 190-214): records the user
turn, resets the input, raises the streaming flag with an empty buffer,
installs a fresh cancellation handle, starts the stream and returns the
first waitForNextChunk command. -/
def sendMessage (m : UIModel) : UIModel × TeaCmd :=
  let userMsg := m.inputValue
  ({ m with
      inputValue := ""
      messages := messagesAdd m.messages .user userMsg
      streaming := true
      streamBuf := ""
      hasCancel := true
      streamOpen := true },
   .waitForNextChunkC)

/-- finalizeStream (internal/ui/model.go lines 260-266): commits the
buffer as one assistant turn, clears it, lowers the streaming flag. -/
def finalizeStream (m : UIModel) : UIModel :=
  { m with
      messages := messagesAdd m.messages .assistant m.streamBuf
      streamBuf := ""
      streaming := false }

/-- The tail of Update (internal/ui/model.go lines 127-139): the input
component is updated only when not streaming; the viewport is always
updated (display-only, not modelled). `inputUpd` is the external
textarea's update function, modelled on the input's value. -/
def updateTail (inputUpd : String → TeaMsg → String) (m : UIModel) (msg : TeaMsg) :
    UIModel × TeaCmd :=
  if m.streaming then (m, .externalTail)
  else ({ m with inputValue := inputUpd m.inputValue msg }, .externalTail)

/-- Model.Update (internal/ui/model.go lines 59-140). `now` is the
current time in milliseconds (time.Now at the ctrl+c branch). Branches
that `return` in the source bypass `updateTail`; the others fall through
to it. -/
def modelUpdate (inputUpd : String → TeaMsg → String) (m : UIModel) (msg : TeaMsg)
    (now : Int) : UIModel × TeaCmd :=
  match msg with
  | .key .ctrlC =>
    if m.streaming then
      ({ m with streaming := false }, .noCmd)
    else if m.showExitPrompt && now - m.lastCtrlC < exitPromptTimeout then
      ({ m with quitting := true }, .quit)
    else
      ({ m with lastCtrlC := now, showExitPrompt := true }, .tickClearExit)
  | .key .enter =>
    if !m.streaming && m.inputValue != "" then sendMessage m
    else (m, .noCmd)
  | .key (.other _) =>
    updateTail inputUpd { m with showExitPrompt := false } msg
  | .clearExitPromptM =>
    updateTail inputUpd { m with showExitPrompt := false } msg
  | .streamChunk s =>
    ({ m with streamBuf := m.streamBuf ++ s }, .waitForNextChunkC)
  | .streamDone =>
    (finalizeStream m, .noCmd)
  | .streamErr e =>
    ({ m with
        err := some e
        streaming := false
        messages := messagesAdd m.messages .assistant ("Error: " ++ e.errString) },
     .noCmd)
  | .windowSize w h =>
    updateTail inputUpd { m with width := w, height := h, ready := true } msg
  | .nilMsg =>
    updateTail inputUpd m msg

/-- waitForNextChunk (internal/ui/model.go lines 216-234) as the message
one received value produces: a closed channel (`none`) maps to done; then
error, done, non-empty content, else a nil message. -/
def waitForNextChunkMsg : Option OldStreamEvent → TeaMsg
  | none => .streamDone
  | some ev =>
    match ev.error with
    | some e => .streamErr e
    | none =>
      if ev.done then .streamDone
      else if ev.content != "" then .streamChunk ev.content
      else .nilMsg

/-- Conversion from the typed StreamEvent of internal/ai/types.go to the
field-based event shape the bridge inspects (the repository holds both
generations; a chunk carries Content, done carries Type done, error
carries Err). -/
def eventToOld (e : StreamEvent) : OldStreamEvent :=
  ⟨e.content, e.type == .done, e.err, ""⟩

/-- Driving the interaction loop: fold Update over a list of delivered
messages (stream messages are time-independent; the clock is fixed). -/
def runUpdates (inputUpd : String → TeaMsg → String) (m : UIModel) :
    List TeaMsg → UIModel
  | [] => m
  | msg :: rest => runUpdates inputUpd (modelUpdate inputUpd m msg 0).1 rest

/-- An event is terminal when it is done or error. -/
def isTerminalEvent (e : StreamEvent) : Bool :=
  e.type == .done || e.type == .error

/-- Well-formed trace shape: every event other than the last is a chunk
(hence at most one terminal event, and nothing follows it). -/
def traceShape : List StreamEvent → Bool
  | [] => true
  | e :: rest => rest.isEmpty || (e.type == .chunk && traceShape rest)

/-- The spec's claimed shape: zero or more chunks followed by exactly one
terminal event. -/
def chunksThenOneTerminal : List StreamEvent → Bool
  | [] => false
  | [e] => isTerminalEvent e
  | e :: rest => e.type == .chunk && chunksThenOneTerminal rest

/-- Concatenation of a list of strings in order. -/
def concatStrings : List String → String
  | [] => ""
  | s :: rest => s ++ concatStrings rest

/-- A chunk event carrying a fragment. -/
def mkChunkEvent (s : String) : StreamEvent :=
  ⟨.chunk, s, none⟩

/-- A decoder that rejects every payload (concrete instantiation for
closed statements; no payload is decoded in them anyway). -/
def decodeNoneStd : String → Option StandardStreamResponse := fun _ => none

/-- A decoder accepting exactly the payload "good" (mock for the OpenAI
reader counterexample). -/
def mockDecodeOA : String → Option StreamChunk := fun s =>
  if s == "good" then some ⟨[⟨"X", none⟩]⟩ else none

/-- A decoder accepting exactly the body "okbody" as a response with one
choice "Hello World!" (mock for closed Complete statements). -/
def mockDecodeComplete : String → Option StandardResponse := fun s =>
  if s == "okbody" then some ⟨[⟨"Hello World!"⟩]⟩ else none

deriving instance DecidableEq for Except

/-- A decoder reproducing the mock server of the repository's streaming
test (internal/ai/openai_test.go): four payloads carrying the fragments
"Hello", " ", "World", "!". -/
def mockDecodeC2 : String → Option StandardStreamResponse := fun s =>
  if s == "p1" then some ⟨[⟨"Hello", ""⟩]⟩
  else if s == "p2" then some ⟨[⟨" ", ""⟩]⟩
  else if s == "p3" then some ⟨[⟨"World", ""⟩]⟩
  else if s == "p4" then some ⟨[⟨"!", ""⟩]⟩
  else none

/-- An identity input component (concrete stand-in for the external
textarea in closed statements). -/
def idInput : String → TeaMsg → String := fun s _ => s

/-- A model state in the middle of a streaming turn, nothing buffered
yet: one user turn recorded, streaming flag up, empty buffer (concrete
instantiation for closed statements). -/
def streamingModel : UIModel :=
  ⟨"", [⟨.user, "hi"⟩], true, "", true, true, none, 80, 24, true, false, 0, false⟩

example : classifyLine "" = .skip := by decide
example : classifyLine "   " = .skip := by decide
example : classifyLine ": keepalive" = .skip := by decide
example : classifyLine "data: [DONE]" = .terminator := by decide
example : classifyLine "data:[DONE]" = .terminator := by decide
example : classifyLine "data: p1" = .payload "p1" := by decide
example : trimRightSlash "http://x/v1/" = "http://x/v1" := by decide

theorem concatStrings_filter_ne_empty (fs : List String) :
    concatStrings (fs.filter (fun f => f != "")) = concatStrings fs := by
  induction fs with
  | nil => rfl
  | cons f rest ih =>
    by_cases hf : f = ""
    · subst hf
      simp [List.filter_cons, concatStrings, ih, String.empty_append]
    · simp [List.filter_cons, hf, concatStrings, ih]

theorem emitChoices_chunk (cs : List StandardStreamChoice) :
    ∀ e ∈ emitChoices cs, e.type = .chunk := by
  intro e he
  simp only [emitChoices, List.mem_filterMap] at he
  obtain ⟨c, -, hc⟩ := he
  by_cases h : c.deltaContent != ""
  · simp only [h, if_pos] at hc
    cases hc
    rfl
  · simp [h] at hc

theorem traceShape_append_chunks (c t : List StreamEvent)
    (hc : ∀ e ∈ c, e.type = .chunk) (ht : traceShape t = true) :
    traceShape (c ++ t) = true := by
  induction c with
  | nil => simpa using ht
  | cons e es ih =>
    have he : e.type = .chunk := hc e (List.mem_cons_self _ _)
    have hrest : traceShape (es ++ t) = true :=
      ih (fun x hx => hc x (List.mem_cons_of_mem _ hx))
    simp [traceShape, he, hrest]

theorem traceShape_streamReadLines (decode : String → Option StandardStreamResponse)
    (lines : List String) (scanErr : Option GoError) :
    traceShape (streamReadLines decode lines scanErr) = true := by
  induction lines with
  | nil =>
    cases scanErr with
    | none => rfl
    | some e =>
      by_cases h : e = .contextCanceled <;> simp [streamReadLines, h, traceShape]
  | cons l rest ih =>
    rw [streamReadLines]
    cases h : classifyLine l with
    | skip => exact ih
    | terminator => rfl
    | payload data =>
      cases hd : decode data with
      | none => simp [hd, traceShape]
      | some chunk =>
        simp only [hd]
        exact traceShape_append_chunks _ _ (emitChoices_chunk chunk.choices) ih

theorem count_close_map_event (evs : List StreamEvent) :
    ((evs.map ChannelAction.event).count ChannelAction.close) = 0 := by
  rw [List.count_eq_zero]
  intro h
  simp only [List.mem_map] at h
  obtain ⟨e, -, he⟩ := h
  exact ChannelAction.noConfusion he

/-- C1 (amended): for every response and every JSON decoder behaviour,
the event sequence the background reader sends is zero or more chunk
events with at most one terminal event, which when present is the last
event; the producer closes the source exactly once, after the last
event. (As stated, the claim demands exactly one terminal event, which
fails: see the counterexample.) -/
theorem c1_stream_trace_shape (decode : String → Option StandardStreamResponse)
    (r : StreamResponse) :
    traceShape (standardStreamEvents decode r) = true ∧
    (standardStreamTrace decode r).count .close = 1 ∧
    (standardStreamTrace decode r).getLast? = some .close := by
  refine ⟨?_, ?_, ?_⟩
  · rw [standardStreamEvents]
    split
    · rfl
    · exact traceShape_streamReadLines decode r.lines r.scanErr
  · rw [standardStreamTrace, List.count_append, count_close_map_event]
    rfl
  · rw [standardStreamTrace]
    rw [List.getLast?_concat]

/-- C1 counterexample: a 200 response whose body ends cleanly without
the [DONE] terminator (no scanner error), and likewise one ended by a
cancellation, produce an event sequence with zero terminal events, not
exactly one — the claimed shape `chunk* (done|error)` is false for these
requests. -/
theorem c1_counterexample :
    standardStreamEvents decodeNoneStd ⟨200, "", [], none⟩ = [] ∧
    chunksThenOneTerminal
      (standardStreamEvents decodeNoneStd ⟨200, "", [], none⟩) = false ∧
    standardStreamEvents decodeNoneStd ⟨200, "", [], some .contextCanceled⟩ = [] ∧
    chunksThenOneTerminal
      (standardStreamEvents decodeNoneStd ⟨200, "", [], some .contextCanceled⟩) = false := by
  refine ⟨rfl, rfl, rfl, rfl⟩

/-- C5 counterexample: IsRetryable returns true for a protocol error with
status 600, which is neither 429 nor inside [500,599]; the code has no
upper bound on the 5xx check. -/
theorem c5_counterexample :
    IsRetryable (some (.apiError "openai" 600 "boom")) = true ∧
    ¬((600 : Int) = 429 ∨ (500 ≤ (600 : Int) ∧ (600 : Int) ≤ 599)) := by
  constructor
  · rfl
  · decide

/-- C5 (amended): IsRetryable is true exactly for an APIError whose
status is at least 500 (no upper bound) or equal to 429, and for a
RateLimitError; every other error value, and the nil error, is
non-retryable. -/
theorem c5_isRetryable_amended (e : Option GoError) :
    IsRetryable e = true ↔
      ((∃ p s msg, e = some (.apiError p s msg) ∧ (500 ≤ s ∨ s = 429)) ∨
       (∃ r, e = some (.rateLimitError r))) := by
  cases e with
  | none => simp [IsRetryable]
  | some g =>
    cases g with
    | errorMsg m => simp [IsRetryable]
    | jsonDecodeError s => simp [IsRetryable]
    | apiError p s msg =>
      simp only [IsRetryable, Bool.or_eq_true, decide_eq_true_eq, ge_iff_le,
        Option.some.injEq, GoError.apiError.injEq, beq_iff_eq]
      constructor
      · rintro (h | h)
        · exact Or.inl ⟨p, s, msg, ⟨rfl, rfl, rfl⟩, Or.inl h⟩
        · exact Or.inl ⟨p, s, msg, ⟨rfl, rfl, rfl⟩, Or.inr h⟩
      · rintro (⟨p', s', msg', ⟨rfl, rfl, rfl⟩, h | h⟩ | ⟨r, h⟩)
        · exact Or.inl h
        · exact Or.inr h
        · exact absurd h (by simp)
    | rateLimitError r =>
      simp [IsRetryable]
    | contextCanceled => simp [IsRetryable]

/-- C4 (amended): for StandardClient.Stream, a data payload the JSON
decoder rejects is fatal: the reader emits exactly one error event and
stops, never reading the remaining lines. (The legacy OpenAIClient.Stream
reader instead skips malformed chunks silently: see the
counterexample.) -/
theorem c4_standard_malformed_fatal (decode : String → Option StandardStreamResponse)
    (line data : String) (rest : List String) (scanErr : Option GoError)
    (hl : classifyLine line = .payload data) (hd : decode data = none) :
    streamReadLines decode (line :: rest) scanErr =
      [⟨.error, "", some (.jsonDecodeError data)⟩] := by
  rw [streamReadLines, hl]
  simp [hd]

theorem c4_standard_malformed_fatal_witness :
    streamReadLines decodeNoneStd ["data: bad", "data: good"] none =
      [⟨.error, "", some (.jsonDecodeError "bad")⟩] :=
  c4_standard_malformed_fatal decodeNoneStd "data: bad" "bad" ["data: good"] none
    (by decide) rfl

/-- C4 counterexample: the OpenAIClient.Stream reader, fed a malformed
payload followed by a well-formed one, emits no error event at all and
keeps reading — the malformed chunk is silently skipped, contradicting
the claim that every parse failure yields exactly one error event and
stops the reader. -/
theorem c4_counterexample :
    openAIReadLines mockDecodeOA ["data: bad", "data: good"] none =
      [⟨"X", false, none, ""⟩] ∧
    ∀ e ∈ openAIReadLines mockDecodeOA ["data: bad", "data: good"] none,
      e.error = none := by
  constructor
  · rfl
  · decide

/-- C6 counterexample: on a 201 response whose body is perfectly valid
and carries one choice, Complete fails with the protocol error instead of
returning the content — the success path requires status exactly 200,
not any 2xx status. -/
theorem c6_counterexample :
    standardComplete mockDecodeComplete ⟨201, "okbody"⟩ =
      .error (httpError 201 "okbody") ∧
    standardComplete mockDecodeComplete ⟨201, "okbody"⟩ ≠ .ok ⟨"Hello World!"⟩ := by
  constructor
  · rfl
  · decide

/-- C6 (amended): Complete returns the first choice's message content
verbatim when the status is exactly 200, the body decodes, and at least
one choice is present; any other status (including other 2xx codes)
fails with the protocol error carrying status and trimmed body; a 200
body the decoder rejects fails with the decode error; a decoded 200 body
with zero choices fails with the empty-response error. -/
theorem c6_complete_cases (decode : String → Option StandardResponse)
    (resp : CompleteResponse) :
    (∀ c cs, resp.statusCode = 200 → decode resp.body = some ⟨c :: cs⟩ →
       standardComplete decode resp = .ok ⟨c.messageContent⟩) ∧
    (resp.statusCode ≠ 200 →
       standardComplete decode resp = .error (httpError resp.statusCode resp.body)) ∧
    (resp.statusCode = 200 → decode resp.body = none →
       standardComplete decode resp = .error (.jsonDecodeError resp.body)) ∧
    (resp.statusCode = 200 → decode resp.body = some ⟨[]⟩ →
       standardComplete decode resp = .error (.errorMsg "no choices returned")) := by
  refine ⟨?_, ?_, ?_, ?_⟩
  · intro c cs h200 hdec
    simp [standardComplete, h200, hdec]
  · intro hne
    simp [standardComplete, bne_iff_ne, hne]
  · intro h200 hdec
    simp [standardComplete, h200, hdec]
  · intro h200 hdec
    simp [standardComplete, h200, hdec]

theorem c6_complete_cases_witness :
    standardComplete mockDecodeComplete ⟨200, "okbody"⟩ = .ok ⟨"Hello World!"⟩ :=
  (c6_complete_cases mockDecodeComplete ⟨200, "okbody"⟩).1 ⟨"Hello World!"⟩ [] rfl rfl

/-- C9: for every client built by NewStandardClient, both request paths
(Complete and Stream go through applyHeaders) attach the auth header
exactly when the configured API key is non-empty, with the configured
header name (default "Authorization") and the configured value marker
(default "Bearer ") followed by the key; with an empty API key only
Content-Type is set. -/
theorem c9_auth_header (cfg : StandardClientConfig) (c : StandardClient)
    (hc : NewStandardClient cfg = .ok c) :
    c.apiKey = cfg.apiKey ∧
    (cfg.authHeader = "" → c.authHeader = "Authorization") ∧
    (cfg.authPre = "" → c.authPre = "Bearer ") ∧
    (c.apiKey ≠ "" → applyHeaders c =
       [("Content-Type", "application/json"), (c.authHeader, c.authPre ++ c.apiKey)]) ∧
    (c.apiKey = "" → applyHeaders c = [("Content-Type", "application/json")]) := by
  rw [NewStandardClient] at hc
  split at hc
  · exact absurd hc (by simp)
  · split at hc
    · exact absurd hc (by simp)
    · injection hc with hc
      subst hc
      refine ⟨rfl, ?_, ?_, ?_, ?_⟩
      · intro h
        simp [h]
      · intro h
        simp [h]
      · intro h
        simp [applyHeaders, h]
      · intro h
        have h' : cfg.apiKey = "" := h
        simp [applyHeaders, h']

theorem c9_auth_header_witness :
    NewStandardClient ⟨"https://api.openai.com/v1", "sk-test", "", "", "gpt-4o", "openai"⟩ =
      .ok ⟨"https://api.openai.com/v1", "sk-test", "Authorization", "Bearer ", "gpt-4o", "openai"⟩ ∧
    applyHeaders ⟨"https://api.openai.com/v1", "sk-test", "Authorization", "Bearer ", "gpt-4o", "openai"⟩ =
      [("Content-Type", "application/json"), ("Authorization", "Bearer sk-test")] ∧
    applyHeaders ⟨"http://localhost:11434/v1", "", "Authorization", "Bearer ", "llama3", "ollama"⟩ =
      [("Content-Type", "application/json")] :=
  ⟨by decide,
   by
     have h := (c9_auth_header
       ⟨"https://api.openai.com/v1", "sk-test", "", "", "gpt-4o", "openai"⟩
       ⟨"https://api.openai.com/v1", "sk-test", "Authorization", "Bearer ", "gpt-4o", "openai"⟩
       (by decide)).2.2.2.1 (by decide)
     simpa using h,
   (c9_auth_header
       ⟨"http://localhost:11434/v1", "", "", "", "llama3", "ollama"⟩
       ⟨"http://localhost:11434/v1", "", "Authorization", "Bearer ", "llama3", "ollama"⟩
       (by decide)).2.2.2.2 rfl⟩

/-- C7: Registry.Build, for a provider present in the configuration,
resolves a registered name to its constructor; the "ollama" constructor
applies the default base URL http://localhost:11434/v1 when none is
configured; an unrecognized name falls back to the generic "custom"
constructor; and with no constructor entry and no "custom" fallback the
build fails with an error carrying the provider name. -/
theorem c7_registry_build (cfg : ConfigGo) (name : String) (p : Provider)
    (hp : lookupA cfg.providers name = some p) :
    (∀ ctor : Ctor, lookupA newRegistryCtors name = some ctor →
       Registry.build newRegistryCtors name (some cfg) = ctor p) ∧
    (name = "ollama" → p.baseURL = "" → p.model ≠ "" →
       Registry.build newRegistryCtors name (some cfg) =
         .ok ⟨"http://localhost:11434/v1", p.apiKey, "Authorization", "Bearer ",
              p.model, "ollama"⟩) ∧
    (lookupA newRegistryCtors name = none →
       Registry.build newRegistryCtors name (some cfg) =
         NewStandardClient ⟨p.baseURL, p.apiKey, "", "", p.model, "custom"⟩) ∧
    (∀ ctors : List (String × Ctor), lookupA ctors name = none →
       lookupA ctors "custom" = none →
       Registry.build ctors name (some cfg) =
         .error (.errorMsg ("provider \"" ++ name ++ "\" has no constructor"))) := by
  refine ⟨?_, ?_, ?_, ?_⟩
  · intro ctor hctor
    simp [Registry.build, hp, hctor]
  · rintro rfl hbase hmodel
    have hl : lookupA newRegistryCtors "ollama" =
        some (fun p =>
          let baseURL := if p.baseURL == "" then "http://localhost:11434/v1" else p.baseURL
          NewStandardClient ⟨baseURL, p.apiKey, "", "", p.model, "ollama"⟩) := rfl
    simp only [Registry.build, hp, hl]
    have htrim : trimRightSlash "http://localhost:11434/v1" = "http://localhost:11434/v1" := by
      decide
    simp [NewStandardClient, hbase, hmodel, htrim]
  · intro hnone
    have hcustom : lookupA newRegistryCtors "custom" =
        some (fun p => NewStandardClient ⟨p.baseURL, p.apiKey, "", "", p.model, "custom"⟩) := rfl
    simp [Registry.build, hp, hnone, hcustom]
  · intro ctors h1 h2
    simp [Registry.build, hp, h1, h2]

theorem c7_registry_build_witness :
    Registry.build newRegistryCtors "ollama"
        (some ⟨"ollama", [("ollama", ⟨"", "", "llama3", "", ""⟩)]⟩) =
      .ok ⟨"http://localhost:11434/v1", "", "Authorization", "Bearer ", "llama3", "ollama"⟩ :=
  (c7_registry_build ⟨"ollama", [("ollama", ⟨"", "", "llama3", "", ""⟩)]⟩ "ollama"
    ⟨"", "", "llama3", "", ""⟩ rfl).2.1 rfl rfl (by decide)

/-- C8: on a stream error the bridge appends exactly one visible error
record (in place of a completed assistant turn), leaves every previously
recorded history message unchanged, does not commit the in-progress
buffer as an assistant turn, and lowers the streaming flag. -/
theorem c8_error_finalization (inputUpd : String → TeaMsg → String) (m : UIModel)
    (e : GoError) (now : Int) :
    (modelUpdate inputUpd m (.streamErr e) now).1.messages =
      m.messages ++ [⟨.assistant, "Error: " ++ e.errString⟩] ∧
    (modelUpdate inputUpd m (.streamErr e) now).1.messages.length =
      m.messages.length + 1 ∧
    (modelUpdate inputUpd m (.streamErr e) now).1.messages.take m.messages.length =
      m.messages ∧
    (modelUpdate inputUpd m (.streamErr e) now).1.streamBuf = m.streamBuf ∧
    (modelUpdate inputUpd m (.streamErr e) now).1.streaming = false := by
  refine ⟨rfl, ?_, ?_, rfl, rfl⟩
  · simp [modelUpdate, messagesAdd]
  · simp [modelUpdate, messagesAdd, List.take_left]

/-- C10: while the streaming flag is set, Enter neither submits the
input nor starts a new request (the update is a no-op with no command),
and no key press reaches the input component or produces the
stream-arming command, so at most one stream is in flight. -/
theorem c10_no_input_while_streaming (inputUpd : String → TeaMsg → String)
    (m : UIModel) (now : Int) (h : m.streaming = true) :
    modelUpdate inputUpd m (.key .enter) now = (m, .noCmd) ∧
    (∀ k : TeaKey,
       (modelUpdate inputUpd m (.key k) now).1.inputValue = m.inputValue ∧
       (modelUpdate inputUpd m (.key k) now).1.messages = m.messages ∧
       (modelUpdate inputUpd m (.key k) now).2 ≠ .waitForNextChunkC) := by
  constructor
  · simp [modelUpdate, h]
  · intro k
    cases k with
    | ctrlC => refine ⟨?_, ?_, ?_⟩ <;> simp [modelUpdate, h]
    | enter => refine ⟨?_, ?_, ?_⟩ <;> simp [modelUpdate, h]
    | other s => refine ⟨?_, ?_, ?_⟩ <;> simp [modelUpdate, updateTail, h]

theorem c10_no_input_while_streaming_witness :
    modelUpdate idInput
      ⟨"pending input", [⟨.user, "hi"⟩], true, "partial", true, true, none,
        80, 24, true, false, 0, false⟩ (.key .enter) 0 =
      (⟨"pending input", [⟨.user, "hi"⟩], true, "partial", true, true, none,
        80, 24, true, false, 0, false⟩, .noCmd) :=
  (c10_no_input_while_streaming idInput
    ⟨"pending input", [⟨.user, "hi"⟩], true, "partial", true, true, none,
      80, 24, true, false, 0, false⟩ 0 rfl).1

/-- C3 (amended): a cancellation observed before any terminal event
produces no error event — the sequence simply ends and the source
closes; and the bridge, observing the closed source before any chunk
arrived, records no error; however it finalizes through the normal done
path, so an empty assistant turn is appended for that turn (the claim's
"no assistant turn is appended" fails, see the counterexample). -/
theorem c3_cancel_before_terminal (decode : String → Option StandardStreamResponse)
    (inputUpd : String → TeaMsg → String) (m : UIModel) (b : String)
    (hbuf : m.streamBuf = "") :
    standardStreamEvents decode ⟨200, b, [], some .contextCanceled⟩ = [] ∧
    waitForNextChunkMsg none = .streamDone ∧
    (modelUpdate inputUpd m .streamDone 0).1.messages = m.messages ++ [⟨.assistant, ""⟩] ∧
    (modelUpdate inputUpd m .streamDone 0).1.err = m.err ∧
    (modelUpdate inputUpd m .streamDone 0).1.streaming = false := by
  refine ⟨rfl, rfl, ?_, rfl, rfl⟩
  simp [modelUpdate, finalizeStream, messagesAdd, hbuf]

theorem c3_cancel_before_terminal_witness :
    standardStreamEvents decodeNoneStd ⟨200, "", [], some .contextCanceled⟩ = [] ∧
    (modelUpdate idInput streamingModel .streamDone 0).1.err = none :=
  ⟨(c3_cancel_before_terminal decodeNoneStd idInput streamingModel "" rfl).1,
   (c3_cancel_before_terminal decodeNoneStd idInput streamingModel "" rfl).2.2.2.1⟩

/-- C3 counterexample: canceling before any chunk arrives (200 response,
nothing read, context canceled) emits no events, but the bridge then
observes the closed source, treats it as done and finalizes: an
assistant turn (with empty content) IS appended to history for that
turn, contradicting the claim that no assistant turn is appended. -/
theorem c3_counterexample :
    standardStreamEvents decodeNoneStd ⟨200, "", [], some .contextCanceled⟩ = [] ∧
    (runUpdates idInput streamingModel
        ((standardStreamEvents decodeNoneStd
            ⟨200, "", [], some .contextCanceled⟩).map
          (fun ev => waitForNextChunkMsg (some (eventToOld ev))) ++
         [waitForNextChunkMsg none])).messages =
      [⟨.user, "hi"⟩, ⟨.assistant, ""⟩] ∧
    ((runUpdates idInput streamingModel
        ((standardStreamEvents decodeNoneStd
            ⟨200, "", [], some .contextCanceled⟩).map
          (fun ev => waitForNextChunkMsg (some (eventToOld ev))) ++
         [waitForNextChunkMsg none])).messages.filter
       (fun r => r.role == .assistant)).length = 1 ∧
    (streamingModel.messages.filter (fun r => r.role == .assistant)).length = 0 := by
  refine ⟨rfl, rfl, rfl, rfl⟩

theorem runUpdates_chunks_then_done (inputUpd : String → TeaMsg → String)
    (fs : List String) (m : UIModel) :
    runUpdates inputUpd m (fs.map TeaMsg.streamChunk ++ [TeaMsg.streamDone]) =
      { m with
          messages := m.messages ++ [⟨.assistant, m.streamBuf ++ concatStrings fs⟩],
          streamBuf := ""
          streaming := false } := by
  induction fs generalizing m with
  | nil =>
    simp [runUpdates, modelUpdate, finalizeStream, messagesAdd, concatStrings,
      String.append_empty]
  | cons f rest ih =>
    simp only [List.map_cons, List.cons_append, runUpdates, modelUpdate, List.append_eq]
    rw [ih]
    simp [concatStrings, String.append_assoc]

theorem streamReadLines_payload_sequence (decode : String → Option StandardStreamResponse)
    (ls fs : List String) (dl : String) (scanErr : Option GoError)
    (hpair : List.Forall₂ (fun l f => ∃ d, classifyLine l = .payload d ∧
        decode d = some ⟨[⟨f, ""⟩]⟩) ls fs)
    (hdl : classifyLine dl = .terminator) :
    streamReadLines decode (ls ++ [dl]) scanErr =
      (fs.filter (fun f => f != "")).map mkChunkEvent ++ [⟨.done, "", none⟩] := by
  induction hpair with
  | nil =>
    simp only [List.nil_append, streamReadLines, hdl]
    rfl
  | @cons l f ls' fs' hlf hrest ih =>
    obtain ⟨d, hl, hd⟩ := hlf
    simp only [List.cons_append, streamReadLines, hl, hd, List.append_eq]
    rw [ih]
    by_cases hf : f = ""
    · subst hf
      simp [emitChoices, List.filter_cons]
    · simp [emitChoices, List.filter_cons, hf, mkChunkEvent]

/-- C2: when the data lines of a 200 streaming response carry the text
fragments f1..fn (one single-choice payload per line) followed by the
[DONE] terminator, the reader emits one chunk event per non-empty
fragment in the exact order parsed, then the done event; and driving the
bridge with those events yields a transcript whose final assistant turn
is the concatenation f1 ++ ... ++ fn of the fragments in order. -/
theorem c2_stream_order_and_concat (decode : String → Option StandardStreamResponse)
    (inputUpd : String → TeaMsg → String) (ls fs : List String)
    (dl b : String) (scanErr : Option GoError) (m : UIModel)
    (hpair : List.Forall₂ (fun l f => ∃ d, classifyLine l = .payload d ∧
        decode d = some ⟨[⟨f, ""⟩]⟩) ls fs)
    (hdl : classifyLine dl = .terminator)
    (hbuf : m.streamBuf = "") :
    standardStreamEvents decode ⟨200, b, ls ++ [dl], scanErr⟩ =
      (fs.filter (fun f => f != "")).map mkChunkEvent ++ [⟨.done, "", none⟩] ∧
    runUpdates inputUpd m
        ((standardStreamEvents decode ⟨200, b, ls ++ [dl], scanErr⟩).map
          (fun ev => waitForNextChunkMsg (some (eventToOld ev)))) =
      { m with
          messages := m.messages ++ [⟨.assistant, concatStrings fs⟩],
          streamBuf := ""
          streaming := false } := by
  have hev : standardStreamEvents decode ⟨200, b, ls ++ [dl], scanErr⟩ =
      (fs.filter (fun f => f != "")).map mkChunkEvent ++ [⟨.done, "", none⟩] :=
    streamReadLines_payload_sequence decode ls fs dl scanErr hpair hdl
  refine ⟨hev, ?_⟩
  rw [hev]
  have hmsgs : (((fs.filter (fun f => f != "")).map mkChunkEvent ++
        [(⟨.done, "", none⟩ : StreamEvent)]).map
          (fun ev => waitForNextChunkMsg (some (eventToOld ev)))) =
      (fs.filter (fun f => f != "")).map TeaMsg.streamChunk ++ [TeaMsg.streamDone] := by
    rw [List.map_append, List.map_map]
    congr 1
    apply List.map_congr_left
    intro f hf
    have hf' : f != "" := by
      have := List.of_mem_filter hf
      simpa using this
    simp only [Function.comp_apply, mkChunkEvent, eventToOld, waitForNextChunkMsg]
    simp [hf']
  rw [hmsgs, runUpdates_chunks_then_done, hbuf]
  simp [String.empty_append, concatStrings_filter_ne_empty]

theorem c2_stream_order_and_concat_witness :
    standardStreamEvents mockDecodeC2
        ⟨200, "", ["data: p1", "data: p2", "data: p3", "data: p4", "data: [DONE]"], none⟩ =
      [mkChunkEvent "Hello", mkChunkEvent " ", mkChunkEvent "World", mkChunkEvent "!",
       ⟨.done, "", none⟩] ∧
    (runUpdates idInput streamingModel
        ((standardStreamEvents mockDecodeC2
            ⟨200, "", ["data: p1", "data: p2", "data: p3", "data: p4", "data: [DONE]"],
             none⟩).map
          (fun ev => waitForNextChunkMsg (some (eventToOld ev))))).messages =
      [⟨.user, "hi"⟩, ⟨.assistant, "Hello World!"⟩] := by
  have h := c2_stream_order_and_concat mockDecodeC2 idInput
    ["data: p1", "data: p2", "data: p3", "data: p4"] ["Hello", " ", "World", "!"]
    "data: [DONE]" "" none streamingModel
    (List.Forall₂.cons ⟨"p1", by decide, rfl⟩
      (List.Forall₂.cons ⟨"p2", by decide, rfl⟩
        (List.Forall₂.cons ⟨"p3", by decide, rfl⟩
          (List.Forall₂.cons ⟨"p4", by decide, rfl⟩ List.Forall₂.nil))))
    (by decide) rfl
  simp only [List.cons_append, List.nil_append] at h
  refine ⟨h.1.trans (by decide), ?_⟩
  rw [h.2]
  decide

end Flux
